import Mathlib

set_option maxRecDepth 4000

/-!
A shallow embedding of the image-reference machinery of the
Obsidian-Image-Round-Edges plugin (src/main.ts), together with proofs about
it.  Strings are modelled by Lean `String` (a list of characters); the
UTF-16 offsets of the original coincide with character offsets on the
inputs considered here.  External Obsidian APIs (vault lookups, the
metadata cache, filesystem effects) are modelled as explicit parameters.
-/

-- ===== JavaScript string primitives =====

/-- Character class of the JavaScript regex escape `\s` (whitespace),
including the Unicode space separators JavaScript recognises. -/
def jsIsWs (c : Char) : Bool :=
  c == ' ' || c == '\t' || c == '\n' || c == '\r' || c == '\u000b' || c == '\u000c' ||
  c == '\u00a0' || c == '\u1680' || ('\u2000' ≤ c && c ≤ '\u200a') || c == '\u2028' ||
  c == '\u2029' || c == '\u202f' || c == '\u205f' || c == '\u3000' || c == '\ufeff'

/-- Drop leading JavaScript whitespace from a character list. -/
def dropWsLeft : List Char → List Char
  | [] => []
  | c :: cs => if jsIsWs c then dropWsLeft cs else c :: cs

/-- Model of JavaScript `String.prototype.trim` on character lists. -/
def jsTrimList (l : List Char) : List Char :=
  dropWsLeft ((dropWsLeft l.reverse).reverse)

/-- Model of JavaScript `String.prototype.trim`. -/
def jsTrim (s : String) : String := ⟨jsTrimList s.data⟩

/-- Model of JavaScript `String.prototype.endsWith`. -/
def jsEndsWith (s suffix : String) : Bool := decide (suffix.data <:+ s.data)

/-- Model of JavaScript `String.prototype.includes`. -/
def jsIncludes (s sub : String) : Bool := decide (sub.data <:+: s.data)

/-- Model of JavaScript `String.prototype.startsWith`. -/
def jsStartsWith (s pre : String) : Bool := decide (pre.data <+: s.data)

/-- Model of JavaScript `String.prototype.slice` for non-negative indices
(`line.slice(start, end)` in `refreshMatch`). -/
def jsSlice (s : String) (start stop : Nat) : String :=
  ⟨(s.data.drop start).take (stop - start)⟩

/-- Value of a hexadecimal digit, as used by percent-decoding. -/
def hexVal (c : Char) : Option Nat :=
  if '0' ≤ c ∧ c ≤ '9' then some (c.toNat - '0'.toNat)
  else if 'a' ≤ c ∧ c ≤ 'f' then some (c.toNat - 'a'.toNat + 10)
  else if 'A' ≤ c ∧ c ≤ 'F' then some (c.toNat - 'A'.toNat + 10)
  else none

/-- One unit of a URI-encoded string: either a literal character or a byte
written as a `%XX` escape. -/
def uriUnits : List Char → Option (List (Char ⊕ Nat))
  | [] => some []
  | '%' :: h1 :: h2 :: rest =>
    match hexVal h1, hexVal h2 with
    | some a, some b => (uriUnits rest).map (fun us => Sum.inr (a * 16 + b) :: us)
    | _, _ => none
  | '%' :: _ :: [] => none
  | '%' :: [] => none
  | c :: rest => if c = '%' then none else (uriUnits rest).map (fun us => Sum.inl c :: us)

/-- Decode the `%XX` byte escapes of a unit list as strict UTF-8, the way
`decodeURIComponent` does; `none` models a thrown `URIError`. -/
def utf8Units : List (Char ⊕ Nat) → Option (List Char)
  | [] => some []
  | Sum.inl c :: rest => (utf8Units rest).map (c :: ·)
  | Sum.inr b :: rest =>
    if b < 0x80 then (utf8Units rest).map (Char.ofNat b :: ·)
    else if 0xc2 ≤ b ∧ b ≤ 0xdf then
      match rest with
      | Sum.inr b2 :: rest2 =>
        if 0x80 ≤ b2 ∧ b2 ≤ 0xbf then
          (utf8Units rest2).map (Char.ofNat ((b - 0xc0) * 0x40 + (b2 - 0x80)) :: ·)
        else none
      | _ => none
    else if 0xe0 ≤ b ∧ b ≤ 0xef then
      match rest with
      | Sum.inr b2 :: Sum.inr b3 :: rest2 =>
        let lo2 := if b = 0xe0 then 0xa0 else 0x80
        let hi2 := if b = 0xed then 0x9f else 0xbf
        if lo2 ≤ b2 ∧ b2 ≤ hi2 ∧ 0x80 ≤ b3 ∧ b3 ≤ 0xbf then
          (utf8Units rest2).map
            (Char.ofNat ((b - 0xe0) * 0x1000 + (b2 - 0x80) * 0x40 + (b3 - 0x80)) :: ·)
        else none
      | _ => none
    else if 0xf0 ≤ b ∧ b ≤ 0xf4 then
      match rest with
      | Sum.inr b2 :: Sum.inr b3 :: Sum.inr b4 :: rest2 =>
        let lo2 := if b = 0xf0 then 0x90 else 0x80
        let hi2 := if b = 0xf4 then 0x8f else 0xbf
        if lo2 ≤ b2 ∧ b2 ≤ hi2 ∧ 0x80 ≤ b3 ∧ b3 ≤ 0xbf ∧ 0x80 ≤ b4 ∧ b4 ≤ 0xbf then
          (utf8Units rest2).map
            (Char.ofNat ((b - 0xf0) * 0x40000 + (b2 - 0x80) * 0x1000 +
              (b3 - 0x80) * 0x40 + (b4 - 0x80)) :: ·)
        else none
      | _ => none
    else none

/-- Model of `decodeURIComponent`; `none` models a thrown `URIError`. -/
def decodeURIComponentOpt (s : String) : Option String :=
  match uriUnits s.data with
  | none => none
  | some us => (utf8Units us).map (fun l => ⟨l⟩)

/-- Model of `value.replace(/\\+/g, '/')`: every run of backslashes becomes
one forward slash.  The boolean records whether the previous character was
a backslash. -/
def collapseBackslashes : Bool → List Char → List Char
  | _, [] => []
  | prevBs, c :: rest =>
    if c = '\\' then
      if prevBs then collapseBackslashes true rest
      else '/' :: collapseBackslashes true rest
    else c :: collapseBackslashes false rest

/-- Model of `value.replace(/^\.\//, '')`: strip one leading `./`. -/
def stripDotSlash : List Char → List Char
  | '.' :: '/' :: rest => rest
  | l => l

/-- Model of the test `/^https?:/i.test(link)` in `resolveTFile`. -/
def isHttpLink (s : String) : Bool :=
  match s.data.map Char.toLower with
  | 'h' :: 't' :: 't' :: 'p' :: ':' :: _ => true
  | 'h' :: 't' :: 't' :: 'p' :: 's' :: ':' :: _ => true
  | _ => false

-- ===== pathsMatch (src/main.ts lines 1733-1749) =====

/-- The normalisation `norm` inside `pathsMatch`: percent-decode (keeping
the input on a decode error), drop the query string, collapse backslash
runs to `/`, lowercase, and strip one leading `./`.  ASCII case mapping is
used for `toLowerCase`. -/
def pathsMatchNorm (value : String) : String :=
  let decoded := (decodeURIComponentOpt value).getD value
  ⟨stripDotSlash ((collapseBackslashes false (decoded.data.takeWhile (· ≠ '?'))).map Char.toLower)⟩

/-- Model of `pathsMatch` (src/main.ts): normalise both paths and compare
for equality or a `/`-separated suffix relation in either direction. -/
def pathsMatch (a b : String) : Bool :=
  let left := pathsMatchNorm a
  let right := pathsMatchNorm b
  decide (left = right) || jsEndsWith left ("/" ++ right) || jsEndsWith right ("/" ++ left)

-- ===== sanitizeImagePath (src/main.ts lines 999-1057) =====

/-- Recognised image extensions, in the alternation order of the source
regexes (`png|jpg|jpeg|gif|webp|bmp|svg`).  No listed extension is a
prefix of another, so first-alternative matching is unambiguous. -/
def imageExts : List String := ["png", "jpg", "jpeg", "gif", "webp", "bmp", "svg"]

/-- Case-insensitively strip the pattern (given in lowercase) from the
front of a character list, returning the remainder. -/
def ciStrip : List Char → List Char → Option (List Char)
  | [], l => some l
  | _ :: _, [] => none
  | p :: ps, c :: cs => if c.toLower = p then ciStrip ps cs else none

/-- Match one of the image extensions case-insensitively at the front of a
list, returning the matched extension and the remainder. -/
def matchExtAux : List String → List Char → Option (List Char × List Char)
  | [], _ => none
  | e :: es, l =>
    match ciStrip e.data l with
    | some rest => some (e.data, rest)
    | none => matchExtAux es l

/-- Match one of `imageExts` at the front of a list. -/
def matchExt (l : List Char) : Option (List Char × List Char) := matchExtAux imageExts l

/-- Leftmost-match combinator: run a position matcher at each successive
suffix, returning the first hit, like a non-anchored JavaScript regex. -/
def firstSome {β : Type} (f : List Char → Option β) : List Char → Option β
  | [] => none
  | c :: cs =>
    match f (c :: cs) with
    | some r => some r
    | none => firstSome f cs

/-- Position matcher for the markdown-shell regex of sanitize step 1,
`!\[[^\]]*\]\(([^)]+)\)`, returning the parenthesised target (group 1). -/
def mdExtractAt : List Char → Option (List Char)
  | '!' :: '[' :: rest =>
    match rest.dropWhile (· ≠ ']') with
    | ']' :: '(' :: rest2 =>
      let inner := rest2.takeWhile (· ≠ ')')
      if inner.isEmpty then none
      else
        match rest2.dropWhile (· ≠ ')') with
        | ')' :: _ => some inner
        | _ => none
    | _ => none
  | _ => none

/-- Characters that terminate the wikilink target class `[^\]|]`. -/
def wikiTargetStop (c : Char) : Bool := c == ']' || c == '|'

/-- Position matcher for the wikilink-shell regex of sanitize step 2,
`!\[\[([^\]|]+)(?:\|[^\]]+)?\]\]`, returning the target (group 1). -/
def wikiExtractAt : List Char → Option (List Char)
  | '!' :: '[' :: '[' :: rest =>
    let tgt := rest.takeWhile (fun c => !(wikiTargetStop c))
    if tgt.isEmpty then none
    else
      match rest.dropWhile (fun c => !(wikiTargetStop c)) with
      | '|' :: rest2 =>
        let alt := rest2.takeWhile (· ≠ ']')
        if alt.isEmpty then none
        else
          match rest2.dropWhile (· ≠ ']') with
          | ']' :: ']' :: _ => some tgt
          | _ => none
      | ']' :: ']' :: _ => some tgt
      | _ => none
  | _ => none

/-- Index of the last occurrence of a character (JS `lastIndexOf`). -/
def lastIdxOf (c : Char) (l : List Char) : Option Nat :=
  match l.reverse.findIdx? (· = c) with
  | some i => some (l.length - 1 - i)
  | none => none

/-- Index of the first occurrence of a character at or after `start`
(JS `indexOf(c, start)`). -/
def idxOfFrom (c : Char) (l : List Char) (start : Nat) : Option Nat :=
  ((l.drop start).findIdx? (· = c)).map (· + start)

/-- Model of the test `/(\.(png|jpg|jpeg|gif|webp|bmp|svg))(\?|#|$)/i` used
in sanitize step 3. -/
def extQHE (inner : List Char) : Bool :=
  inner.tails.any fun t =>
    match t with
    | '.' :: rest =>
      match matchExt rest with
      | some (_, after) => after.isEmpty || after.head? == some '?' || after.head? == some '#'
      | none => false
    | _ => false

/-- Sanitize step 3: if the string contains parentheses, take the innermost
`( ... )` content when it looks like an image path. -/
def sanStep3 (p : List Char) : List Char :=
  if p.contains '(' ∧ p.contains ')' then
    match lastIdxOf '(' p with
    | some lastOpen =>
      match idxOfFrom ')' p (lastOpen + 1) with
      | some lastClose =>
        let inner := jsTrimList ((p.drop (lastOpen + 1)).take (lastClose - (lastOpen + 1)))
        if extQHE inner then inner else p
      | none => p
    | none => p
  else p

/-- Character class `[^\s"'()]` of the sanitize step 5 token regex. -/
def isTokenChar (c : Char) : Bool :=
  !(jsIsWs c) && c != '"' && c != '\'' && c != '(' && c != ')'

/-- Try the step 5 token regex at one position with the `.` of the
extension at index `dotPos`, returning the match and the remainder.  The
index must sit at the end of a non-empty run of token characters. -/
def tokenAtDot (l : List Char) (dotPos : Nat) : Option (List Char × List Char) :=
  if 1 ≤ dotPos ∧ l.get? dotPos = some '.' ∧ (l.take dotPos).all isTokenChar then
    match matchExt (l.drop (dotPos + 1)) with
    | some (e, rest) =>
      let qlen : Nat :=
        match rest with
        | '?' :: more => 1 + (more.takeWhile isTokenChar).length
        | '#' :: more => 1 + (more.takeWhile isTokenChar).length
        | _ => 0
      let len := dotPos + 1 + e.length + qlen
      some (l.take len, l.drop len)
    | none => none
  else none

/-- Greedy search for the step 5 token match at one position: try the
extension dot at the largest candidate index first, the way a greedy
`[^\s"'()]+` backtracks. -/
def tokenDescend (l : List Char) : Nat → Option (List Char × List Char)
  | 0 => none
  | n + 1 =>
    match tokenAtDot l (n + 1) with
    | some r => some r
    | none => tokenDescend l n

/-- Position matcher for the step 5 token regex
`[^\s"'()]+\.(?:png|jpg|jpeg|gif|webp|bmp|svg)(?:[?#][^\s"'()]*)?`. -/
def tokenMatchAt (l : List Char) : Option (List Char × List Char) :=
  tokenDescend l ((l.takeWhile isTokenChar).length - 1)

/-- Global scan of the step 5 token regex (`String.prototype.match` with the
`g` flag): collect every non-overlapping leftmost match. -/
def tokenScan : Nat → List Char → List (List Char)
  | 0, _ => []
  | _ + 1, [] => []
  | fuel + 1, c :: cs =>
    match tokenMatchAt (c :: cs) with
    | some (m, rest) => m :: tokenScan fuel rest
    | none => tokenScan fuel cs

/-- Check the step 6 regex `\.{ext}(?:[?#].*|$)` (case-insensitive) at one
index of the list. -/
def extMatchesAt (p : List Char) (e : String) (i : Nat) : Bool :=
  match p.drop i with
  | '.' :: rest =>
    match ciStrip e.data rest with
    | some after => after.isEmpty || after.head? == some '?' || after.head? == some '#'
    | none => false
  | _ => false

/-- End position (index after the extension) of the first step 6 match for
one extension, i.e. `m.index + ('.' + ext).length`. -/
def extEndIdx (p : List Char) (e : String) : Option Nat :=
  ((List.range p.length).find? (fun i => extMatchesAt p e i)).map (fun i => i + 1 + e.length)

/-- Sanitize step 6: truncate at the end of the rightmost-ending recognised
extension when it is followed by a query/hash or the end of the string. -/
def sanStep6 (p : List Char) : List Char :=
  let bestEnd := imageExts.foldl
    (fun acc e =>
      match extEndIdx p e with
      | some n =>
        match acc with
        | some m => some (max m n)
        | none => some n
      | none => acc)
    none
  match bestEnd with
  | some n => p.take n
  | none => p

/-- Model of `sanitizeImagePath` (src/main.ts lines 999-1057): trim, strip
an accidental markdown or wikilink shell, recover an innermost
parenthesised target, normalise backslashes, percent-decode (keeping the
input on error), strip one leading `./`, keep the last token that ends in
an image extension, truncate after the extension, and reject strings with
embedded newlines; `none` models `null`. -/
def sanitizeImagePath (raw : String) : Option String :=
  if raw = "" then none
  else
    let p0 := jsTrimList raw.data
    let p1 := match firstSome mdExtractAt p0 with
      | some inner => jsTrimList inner
      | none => p0
    let p2 := match firstSome wikiExtractAt p1 with
      | some tgt => jsTrimList tgt
      | none => p1
    let p3 := sanStep3 p2
    let p4 := collapseBackslashes false p3
    let p5 := match decodeURIComponentOpt ⟨p4⟩ with
      | some d => d.data
      | none => p4
    let p6 := stripDotSlash p5
    let p7 := match (tokenScan p6.length p6).getLast? with
      | some t => t
      | none => p6
    let p8 := sanStep6 p7
    if p8.contains '\n' ∨ p8.contains '\r' then none
    else if p8.isEmpty then none
    else some ⟨p8⟩

-- ===== Reference scanner: collectMatches (src/main.ts lines 936-997) =====

/-- The three reference syntaxes of `ImageMatch.kind`. -/
inductive RefKind
  | markdown
  | wikilink
  | html
deriving DecidableEq

/-- Model of the `ImageMatch` record (src/main.ts line 195).  The source
field `end` is called `endOffset` here because `end` is a Lean keyword. -/
structure ImageMatch where
  lineNumber : Nat
  start : Nat
  endOffset : Nat
  path : String
  alt : String
  raw : String
  kind : RefKind
deriving DecidableEq

/-- Finish a markdown-image match after the target: the optional quoted
title `(?:\s+"([^"]*)")?` followed by the closing `)`. -/
def mdFinish (alt tgt r4 : List Char) : Option (List Char × List Char × List Char) :=
  let afterTitle : Option (List Char) :=
    let ws := r4.takeWhile jsIsWs
    if ws.isEmpty then none
    else
      match r4.drop ws.length with
      | '"' :: r5 =>
        match r5.dropWhile (· ≠ '"') with
        | '"' :: r6 => some r6
        | _ => none
      | _ => none
  match afterTitle with
  | some r6 =>
    match r6 with
    | ')' :: r7 => some (alt, tgt, r7)
    | _ => none
  | none =>
    match r4 with
    | ')' :: r7 => some (alt, tgt, r7)
    | _ => none

/-- Position matcher for the markdown image regex
`!\[([^\]]*)\]\((?:<([^>]+)>|([^)\s]+))(?:\s+"([^"]*)")?\)`, returning
`(alt, target, rest)`.  If the angle-bracket alternative matches but the
tail of the pattern then fails, the plain alternative is retried, the way
the regex engine backtracks. -/
def mdMatchAt (l : List Char) : Option (List Char × List Char × List Char) :=
  match l with
  | '!' :: '[' :: rest =>
    let alt := rest.takeWhile (· ≠ ']')
    match rest.dropWhile (· ≠ ']') with
    | ']' :: '(' :: rest2 =>
      let angle : Option (List Char × List Char) :=
        match rest2 with
        | '<' :: r3 =>
          let t := r3.takeWhile (· ≠ '>')
          if t.isEmpty then none
          else
            match r3.dropWhile (· ≠ '>') with
            | '>' :: r4 => some (t, r4)
            | _ => none
        | _ => none
      let plain : Option (List Char × List Char) :=
        let t := rest2.takeWhile (fun c => !(c == ')') && !(jsIsWs c))
        if t.isEmpty then none else some (t, rest2.drop t.length)
      match angle with
      | some (tgt, r4) =>
        match mdFinish alt tgt r4 with
        | some res => some res
        | none =>
          match plain with
          | some (tgt2, r42) => mdFinish alt tgt2 r42
          | none => none
      | none =>
        match plain with
        | some (tgt2, r42) => mdFinish alt tgt2 r42
        | none => none
    | _ => none
  | _ => none

/-- One global-scan step of the markdown pass of `collectMatches`: emit a
match (unless its sanitized path is `null`) and continue after it. -/
def mdPass (ln : Nat) : Nat → Nat → List Char → List ImageMatch
  | 0, _, _ => []
  | _ + 1, _, [] => []
  | fuel + 1, pos, c :: cs =>
    match mdMatchAt (c :: cs) with
    | some (alt, tgt, rest) =>
      let len := (c :: cs).length - rest.length
      let entry : List ImageMatch :=
        match sanitizeImagePath ⟨jsTrimList tgt⟩ with
        | some safe =>
          [⟨ln, pos, pos + len, safe, ⟨jsTrimList alt⟩, ⟨(c :: cs).take len⟩, RefKind.markdown⟩]
        | none => []
      entry ++ mdPass ln fuel (pos + len) rest
    | none => mdPass ln fuel (pos + 1) cs

/-- Position matcher for the wikilink image regex
`!\[\[([^|\]]+)(?:\|([^\]]+))?\]\]`, returning `(target, alt?, rest)`. -/
def wikiMatchAt (l : List Char) : Option (List Char × Option (List Char) × List Char) :=
  match l with
  | '!' :: '[' :: '[' :: rest =>
    let tgt := rest.takeWhile (fun c => !(wikiTargetStop c))
    if tgt.isEmpty then none
    else
      match rest.dropWhile (fun c => !(wikiTargetStop c)) with
      | '|' :: rest2 =>
        let alt := rest2.takeWhile (· ≠ ']')
        if alt.isEmpty then none
        else
          match rest2.dropWhile (· ≠ ']') with
          | ']' :: ']' :: r3 => some (tgt, some alt, r3)
          | _ => none
      | ']' :: ']' :: r3 => some (tgt, none, r3)
      | _ => none
  | _ => none

/-- One global-scan step of the wikilink pass of `collectMatches`; the
wikilink path is pushed trimmed but not sanitized, and the alt text falls
back to the target. -/
def wikiPass (ln : Nat) : Nat → Nat → List Char → List ImageMatch
  | 0, _, _ => []
  | _ + 1, _, [] => []
  | fuel + 1, pos, c :: cs =>
    match wikiMatchAt (c :: cs) with
    | some (tgt, altOpt, rest) =>
      let len := (c :: cs).length - rest.length
      ⟨ln, pos, pos + len, ⟨jsTrimList tgt⟩, ⟨jsTrimList (altOpt.getD tgt)⟩,
        ⟨(c :: cs).take len⟩, RefKind.wikilink⟩ :: wikiPass ln fuel (pos + len) rest
    | none => wikiPass ln fuel (pos + 1) cs

/-- Position matcher for the HTML image regex `<img\s+[^>]*>`, returning
the raw tag text and the rest. -/
def htmlMatchAt (l : List Char) : Option (List Char × List Char) :=
  match ciStrip ['<', 'i', 'm', 'g'] l with
  | some r1 =>
    let ws := r1.takeWhile jsIsWs
    if ws.isEmpty then none
    else
      let r2 := r1.drop ws.length
      let body := r2.takeWhile (· ≠ '>')
      match r2.drop body.length with
      | '>' :: rest => some (l.take (l.length - rest.length), rest)
      | _ => none
  | none => none

/-- Model of `getAttr` (src/main.ts line 993): the first occurrence of
`name\s*=\s*("([^"]*)"|'([^']*)')` in the tag, returning the trimmed quoted
value (which may be the empty string). -/
def getAttrAt (name : List Char) (l : List Char) : Option (List Char) :=
  match ciStrip name l with
  | some r1 =>
    match r1.dropWhile jsIsWs with
    | '=' :: r3 =>
      match r3.dropWhile jsIsWs with
      | '"' :: r5 =>
        let v := r5.takeWhile (· ≠ '"')
        (match r5.dropWhile (· ≠ '"') with
         | '"' :: _ => some v
         | _ => none)
      | '\'' :: r5 =>
        let v := r5.takeWhile (· ≠ '\'')
        (match r5.dropWhile (· ≠ '\'') with
         | '\'' :: _ => some v
         | _ => none)
      | _ => none
    | _ => none
  | none => none

/-- Model of `getAttr` on strings. -/
def getAttr (tag : String) (name : String) : Option String :=
  (firstSome (getAttrAt (name.data.map Char.toLower)) tag.data).map (fun v => ⟨jsTrimList v⟩)

/-- One global-scan step of the HTML pass of `collectMatches`: a tag is
skipped when its `src` attribute is missing or empty, or when the sanitized
path is `null`. -/
def htmlPass (ln : Nat) : Nat → Nat → List Char → List ImageMatch
  | 0, _, _ => []
  | _ + 1, _, [] => []
  | fuel + 1, pos, c :: cs =>
    match htmlMatchAt (c :: cs) with
    | some (raw, rest) =>
      let len := (c :: cs).length - rest.length
      let entry : List ImageMatch :=
        match getAttr ⟨raw⟩ "src" with
        | some p =>
          if p = "" then []
          else
            match sanitizeImagePath p with
            | some safe =>
              [⟨ln, pos, pos + len, safe, (getAttr ⟨raw⟩ "alt").getD "", ⟨raw⟩, RefKind.html⟩]
            | none => []
        | none => []
      entry ++ htmlPass ln fuel (pos + len) rest
    | none => htmlPass ln fuel (pos + 1) cs

/-- Model of `collectMatches` (src/main.ts lines 936-991): the markdown
pass, then the wikilink pass, then the HTML pass. -/
def collectMatches (line : String) (lineNumber : Nat) : List ImageMatch :=
  mdPass lineNumber line.data.length 0 line.data ++
  wikiPass lineNumber line.data.length 0 line.data ++
  htmlPass lineNumber line.data.length 0 line.data

-- ===== findMatchInLine / refreshMatch (src/main.ts lines 490-508) =====

/-- The options record of `findMatchInLine`. -/
structure FindOpts where
  targetSrc : Option String := none
  cursorCh : Option Nat := none

/-- Model of `findMatchInLine` (src/main.ts lines 497-508).  A present but
empty `targetSrc` is falsy in the source, so it disables the path search;
when neither search hits, the first candidate of the line (if any) is
returned. -/
def findMatchInLine (line : String) (lineNumber : Nat) (opts : FindOpts) : Option ImageMatch :=
  let candidates := collectMatches line lineNumber
  let byPath : Option ImageMatch :=
    match opts.targetSrc with
    | some t => if t = "" then none else candidates.find? (fun c => pathsMatch t c.path)
    | none => none
  match byPath with
  | some m => some m
  | none =>
    let byCursor : Option ImageMatch :=
      match opts.cursorCh with
      | some ch => candidates.find? (fun c => decide (c.start ≤ ch ∧ ch ≤ c.endOffset))
      | none => none
    match byCursor with
    | some m => some m
    | none => candidates.head?

/-- Model of `editor.getLine` over a document given as its list of lines. -/
def editorGetLine (doc : List String) (n : Nat) : String := doc.getD n ""

/-- Model of `refreshMatch` (src/main.ts lines 490-495): use the match
as-is when its raw text still sits at the stored span, otherwise rescan the
line looking for a candidate with a matching asset path. -/
def refreshMatch (doc : List String) (m : ImageMatch) : Option ImageMatch :=
  let line := editorGetLine doc m.lineNumber
  if jsSlice line m.start m.endOffset = m.raw then some m
  else findMatchInLine line m.lineNumber ⟨some m.path, none⟩

-- ===== resolveTFile (src/main.ts lines 1059-1090) =====

/-- Fields of an Obsidian `TFile` used by the embedded functions; `parent`
is the path of the containing folder (`none` when the file has none). -/
structure VFile where
  path : String
  parent : Option String
  basename : String
  extension : String
deriving DecidableEq

/-- The Obsidian APIs consumed by the embedded functions, as an abstract
environment: the metadata-cache link resolver, the vault path lookup, and
the active view's file. -/
structure ObsEnv where
  getFirstLinkpathDest : String → String → Option VFile
  getAbstractFileByPath : String → Option VFile
  viewFile : Option VFile

/-- Model of `resolveTFile` (src/main.ts lines 1059-1090): refuse remote
links, sanitize (falling back to the raw link), strip one leading `./`,
then try the link resolver, a direct path lookup, and a lookup relative to
the current file's folder. -/
def resolveTFile (E : ObsEnv) (link : String) : Option VFile :=
  if isHttpLink link then none
  else
    let candidate := (sanitizeImagePath link).getD link
    let decodedLink : String := ⟨stripDotSlash candidate.data⟩
    let base := (E.viewFile.map (fun f => f.path)).getD ""
    match E.getFirstLinkpathDest decodedLink base with
    | some f => some f
    | none =>
      match E.getAbstractFileByPath decodedLink with
      | some f => some f
      | none =>
        match E.viewFile with
        | some vf =>
          let parentPath := (vf.parent).getD ""
          let fullPath := if parentPath = "" then decodedLink else parentPath ++ "/" ++ decodedLink
          E.getAbstractFileByPath fullPath
        | none => none

-- ===== PromiseQueue (src/main.ts lines 207-241) =====

/-- State of the `PromiseQueue` helper class: the fixed concurrency bound,
the number of started-but-not-finished tasks (`current`), and the queued
tasks not yet started. -/
structure PromiseQueue (α : Type) where
  concurrency : Nat
  current : Nat
  queue : List α

/-- Model of `PromiseQueue.next`: starts the first queued task when a pool
slot is free, incrementing `current`; otherwise does nothing. -/
def PromiseQueue.next {α : Type} (s : PromiseQueue α) : PromiseQueue α :=
  if s.concurrency ≤ s.current ∨ s.queue.isEmpty then s
  else { s with current := s.current + 1, queue := s.queue.tail }

/-- Model of `PromiseQueue.add`: enqueue a task and call `next`. -/
def PromiseQueue.addTask {α : Type} (s : PromiseQueue α) (t : α) : PromiseQueue α :=
  PromiseQueue.next { s with queue := s.queue ++ [t] }

/-- Model of the `finally` callback of a started task: decrement `current`
and call `next`. -/
def PromiseQueue.finishTask {α : Type} (s : PromiseQueue α) : PromiseQueue α :=
  PromiseQueue.next { s with current := s.current - 1 }

/-- The observable events of a `PromiseQueue`: a task is added, or a
started task finishes. -/
inductive QueueEvent (α : Type)
  | add (t : α)
  | finish

/-- One event step of the queue. -/
def PromiseQueue.step {α : Type} (s : PromiseQueue α) : QueueEvent α → PromiseQueue α
  | QueueEvent.add t => s.addTask t
  | QueueEvent.finish => s.finishTask

/-- Run a queue from a state through a list of events. -/
def PromiseQueue.run {α : Type} (s : PromiseQueue α) (evs : List (QueueEvent α)) : PromiseQueue α :=
  evs.foldl PromiseQueue.step s

/-- Model of `new PromiseQueue(c)`: no running and no queued tasks. -/
def newPromiseQueue (α : Type) (concurrency : Nat) : PromiseQueue α :=
  ⟨concurrency, 0, []⟩

-- ===== Effective radius (PY_ROUND_IMAGE lines 38-48, canvas 1623-1635) =====

/-- The `RadiusUnit` type of src/settings.ts: `'percent' | 'px'`. -/
inductive RadiusUnit
  | percent
  | px
deriving DecidableEq

/-- Radius computation of `apply_effects` in the embedded Python script
(PY_ROUND_IMAGE): percent is scaled by the smaller dimension, the result is
clamped into `[0, min(w, h) / 2]`. -/
def pyRadiusPx (w h : Nat) (radiusValue : ℚ) (unit : RadiusUnit) : ℚ :=
  let baseDimension : ℚ := min (w : ℚ) (h : ℚ)
  let maxRadius := baseDimension / 2
  let radiusPx := if unit = RadiusUnit.percent then radiusValue / 100 * baseDimension else radiusValue
  max 0 (min radiusPx maxRadius)

/-- Radius computation of `roundImageWithCanvas` (src/main.ts lines
1623-1635), identical in shape to the Python one. -/
def canvasRadiusPx (w h : Nat) (radius : ℚ) (unit : RadiusUnit) : ℚ :=
  let baseDimension : ℚ := min (w : ℚ) (h : ℚ)
  let maxRadius := baseDimension / 2
  let radiusPx := if unit = RadiusUnit.percent then radius / 100 * baseDimension else radius
  max 0 (min radiusPx maxRadius)

-- ===== Output path naming (src/main.ts lines 1504-1508 and 1653-1656) =====

/-- Output path computation of `roundImageFile`: `folder` is
`file.parent?.path ?? ''`, `base` is the basename, and `radiusStr` is the
string interpolation of the radius number. -/
def roundImageFileNewPath (folder base radiusStr : String) (unit : RadiusUnit) : String :=
  let suffix := if unit = RadiusUnit.percent then radiusStr ++ "p" else radiusStr ++ "px"
  if folder ≠ "" then folder ++ "/" ++ base ++ "-rounded-" ++ suffix ++ ".png"
  else base ++ "-rounded-" ++ suffix ++ ".png"

/-- Output path computation of `roundImageWithCanvas`, written separately
in the source with the same formula. -/
def roundImageWithCanvasNewPath (folder base radiusStr : String) (unit : RadiusUnit) : String :=
  let suffix := if unit = RadiusUnit.percent then radiusStr ++ "p" else radiusStr ++ "px"
  if folder ≠ "" then folder ++ "/" ++ base ++ "-rounded-" ++ suffix ++ ".png"
  else base ++ "-rounded-" ++ suffix ++ ".png"

/-- The output-path template stated by the specification:
`{dir}/{basename}-rounded-{radiusValue}{unit-suffix}.png` with suffix `p`
for percent and `px` for pixel.  This definition follows the
specification's words, for comparison with the source definitions. -/
def specOutputPath (dir basename radiusValue : String) (unit : RadiusUnit) : String :=
  (if dir ≠ "" then dir ++ "/" else "") ++ basename ++ "-rounded-" ++ radiusValue ++
    (if unit = RadiusUnit.percent then "p" else "px") ++ ".png"

-- ===== Reference rewriting (src/main.ts lines 867-933, 1920-1938) =====

/-- Model of `buildReference` (src/main.ts lines 923-933). -/
def buildReference (m : ImageMatch) (newPath : String) : String :=
  match m.kind with
  | RefKind.markdown => "![" ++ m.alt ++ "](" ++ newPath ++ ")"
  | RefKind.wikilink => "![[" ++ newPath ++ "|" ++ m.alt ++ "]]"
  | RefKind.html => "<img src=\"" ++ newPath ++ "\" alt=\"" ++ m.alt ++ "\">"

/-- Split a directory path on `/` keeping only truthy (non-empty) parts,
as `dir.split('/').filter(p => p)`. -/
def splitParts (s : String) : List String := (s.splitOn "/").filter (fun p => p ≠ "")

/-- Length of the common prefix of two part lists (the `commonLength`
loop of `getRelativePathForNote`). -/
def commonPrefixLen : List String → List String → Nat
  | a :: as, b :: bs => if a = b then commonPrefixLen as bs + 1 else 0
  | _, _ => 0

/-- Model of `'../'.repeat(n)`-style repetition. -/
def repeatStr (s : String) : Nat → String
  | 0 => ""
  | n + 1 => s ++ repeatStr s n

/-- Model of the test `/^[A-Za-z]:/.test(path)`. -/
def driveLetterPrefix (s : String) : Bool :=
  match s.data with
  | c :: ':' :: _ => ('A' ≤ c && c ≤ 'Z') || ('a' ≤ c && c ≤ 'z')
  | _ => false

/-- Model of `getRelativePathForNote` (src/main.ts lines 867-921): rewrite
an absolute vault path into the relative form the note originally used,
when the original reference was relative. -/
def getRelativePathForNote (E : ObsEnv) (absolutePath : String) : String :=
  let originalPath := absolutePath
  if jsStartsWith originalPath "./" then
    match E.viewFile with
    | none => absolutePath
    | some currentFile =>
      match E.getAbstractFileByPath absolutePath with
      | none => absolutePath
      | some newFile =>
        let currentDir := currentFile.parent.getD ""
        let newFileDir := newFile.parent.getD ""
        if newFileDir = currentDir then
          "./" ++ newFile.basename ++ "." ++ newFile.extension
        else if currentDir ≠ "" ∧ jsStartsWith newFileDir (currentDir ++ "/") then
          let subPath : String := ⟨newFileDir.data.drop (currentDir.data.length + 1)⟩
          "./" ++ subPath ++ "/" ++ newFile.basename ++ "." ++ newFile.extension
        else
          let currentParts := splitParts currentDir
          let newParts := splitParts newFileDir
          let commonLength := commonPrefixLen currentParts newParts
          let upLevels := currentParts.length - commonLength
          let relativeParts := newParts.drop commonLength
          let fileName := newFile.basename ++ "." ++ newFile.extension
          if upLevels = 0 ∧ relativeParts.length = 0 then "./" ++ fileName
          else repeatStr "../" upLevels ++ String.intercalate "/" relativeParts ++ "/" ++ fileName
  else if !(jsStartsWith originalPath "/") && !(driveLetterPrefix originalPath) then
    match E.viewFile with
    | none => absolutePath
    | some currentFile =>
      match E.getAbstractFileByPath absolutePath with
      | none => absolutePath
      | some newFile =>
        let currentDir := currentFile.parent.getD ""
        let newFileDir := newFile.parent.getD ""
        if newFileDir = currentDir then newFile.basename ++ "." ++ newFile.extension
        else absolutePath
  else absolutePath

/-- Model of `finalPath.replace(/ /g, '%20')`. -/
def encodeSpaces (s : String) : String :=
  ⟨s.data.flatMap (fun c => if c = ' ' then ['%', '2', '0'] else [c])⟩

-- ===== Per-asset task (src/main.ts lines 1848-1902, 1964-2002) =====

/-- Terminal outcome of one per-asset processing task; the failure cases
follow the debug-log tags of the source. -/
inductive TaskOutcome
  | fileNotFound
  | readFailed
  | backupFailed
  | outputInvalid
  | processingException
  | success (newPath : String)
deriving DecidableEq

/-- Results of the external effects one task performs, supplied as an
environment: whether `readBinary` succeeds, the paths returned by
`createBackup` and `createLocalBackup` (`""` models a failed copy), the
result of `roundImageFile` (`none` models a thrown error), the binary
files `roundImageFile` wrote while running, and whether the final output
file exists as a non-empty `TFile`. -/
structure TaskEff where
  readOk : Bool
  hiddenBackup : String
  localBackup : String
  transform : Option String
  transformWrites : List String
  finalValid : Bool

/-- Result of one task: its outcome, whether `roundImageFile` was invoked,
and the binary files written while the task ran (backup copies and
transform output; the textual debug log is not modelled). -/
structure TaskResult where
  outcome : TaskOutcome
  transformInvoked : Bool
  writes : List String
deriving DecidableEq

/-- The shared tail of the per-asset task bodies of
`processImagesQueueFromMatches` (lines 1861-1893) and
`processImageFilesQueue` (lines 1969-1993): ensure the asset is readable,
create the two backups requiring at least one to succeed, invoke
`roundImageFile`, and validate the final output file. -/
def processOneAsset (eff : TaskEff) : TaskResult :=
  if !eff.readOk then ⟨TaskOutcome.readFailed, false, []⟩
  else
    let backupWrites :=
      (if eff.hiddenBackup = "" then [] else [eff.hiddenBackup]) ++
      (if eff.localBackup = "" then [] else [eff.localBackup])
    if eff.hiddenBackup = "" ∧ eff.localBackup = "" then ⟨TaskOutcome.backupFailed, false, []⟩
    else
      match eff.transform with
      | none => ⟨TaskOutcome.processingException, true, backupWrites ++ eff.transformWrites⟩
      | some newPath =>
        if eff.finalValid then ⟨TaskOutcome.success newPath, true, backupWrites ++ eff.transformWrites⟩
        else ⟨TaskOutcome.outputInvalid, true, backupWrites ++ eff.transformWrites⟩

/-- One per-reference task of `processImagesQueueFromMatches` (note batch,
lines 1848-1902): resolve the reference's path first, then run the shared
per-asset body. -/
def runNoteTask (E : ObsEnv) (eff : TaskEff) (m : ImageMatch) : TaskResult :=
  match resolveTFile E m.path with
  | none => ⟨TaskOutcome.fileNotFound, false, []⟩
  | some _ => processOneAsset eff

/-- One per-file task of `processImageFilesQueue` (bulk batch, lines
1964-2002): the file handle is given, so there is no resolution step. -/
def runBulkTask (eff : TaskEff) : TaskResult := processOneAsset eff

-- ===== Batch edit construction (src/main.ts lines 1879-1938) =====

/-- The references whose task succeeded, paired with the new asset path, in
batch order (`successMatches` of `processImagesQueueFromMatches`; under the
concurrency of the real scheduler this list may be built in any order, but
it is sorted before use). -/
def successMatchesOf (E : ObsEnv) (eff : ImageMatch → TaskEff) (refreshed : List ImageMatch) :
    List (ImageMatch × String) :=
  refreshed.filterMap fun m =>
    match (runNoteTask E (eff m) m).outcome with
    | TaskOutcome.success p => some (m, p)
    | _ => none

/-- The order produced by the comparator of src/main.ts lines 1912-1917:
`a` precedes `b` when `b` is on an earlier line, or on the same line at an
earlier or equal start offset (descending document order). -/
def editLe (a b : ImageMatch × String) : Prop :=
  b.1.lineNumber < a.1.lineNumber ∨ (b.1.lineNumber = a.1.lineNumber ∧ b.1.start ≤ a.1.start)

instance : DecidableRel editLe := fun a b => by unfold editLe; infer_instance

/-- Model of `successMatches.sort(...)` with the descending comparator. -/
def sortSuccessMatches (l : List (ImageMatch × String)) : List (ImageMatch × String) :=
  List.insertionSort editLe l

/-- One entry of the `changes` array of the editor transaction
(src/main.ts lines 1921-1937). -/
structure EditorChange where
  fromLine : Nat
  fromCh : Nat
  toLine : Nat
  toCh : Nat
  text : String
deriving DecidableEq

/-- Build one change of the transaction from a succeeded match: compute the
note-relative path, re-encode spaces when the original reference used
them, and rebuild the reference text (lines 1923-1935). -/
def changeOf (E : ObsEnv) (item : ImageMatch × String) : EditorChange :=
  let m := item.1
  let finalPath := getRelativePathForNote E item.2
  let processedPath :=
    if jsIncludes m.path "%20" || jsIncludes m.path " " then encodeSpaces finalPath else finalPath
  ⟨m.lineNumber, m.start, m.lineNumber, m.endOffset, buildReference m processedPath⟩

/-- The full `changes` list submitted in the atomic editor transaction:
the succeeded matches, sorted descending, each turned into a change. -/
def buildChanges (E : ObsEnv) (successMatches : List (ImageMatch × String)) : List EditorChange :=
  (sortSuccessMatches successMatches).map (changeOf E)

/-- Strict document order on changes: `c` lies before `d` when it is on an
earlier line, or on the same line at a smaller start offset. -/
def docBefore (c d : EditorChange) : Prop :=
  c.fromLine < d.fromLine ∨ (c.fromLine = d.fromLine ∧ c.fromCh < d.fromCh)

/-- Sequential application of one change to a line of text, in the way a
host applies a span replacement (`replacement` spliced over the half-open
span); this models the document-edit boundary of the specification. -/
def applyChangeToLine (line : String) (c : EditorChange) : String :=
  ⟨line.data.take c.fromCh ++ c.text.data ++ line.data.drop c.toCh⟩

/-- Sequential application of a list of changes to one line, in list
order, as a host would apply the transaction's edits internally. -/
def applyChangesSeq (line : String) (cs : List EditorChange) : String :=
  cs.foldl applyChangeToLine line

-- ===== Action ledger and undo (src/main.ts lines 197-204, 1145-1261) =====

/-- Model of the `LastAction` record (src/main.ts lines 197-204). -/
structure LastAction where
  originalPaths : List String
  backupPaths : List String
  localBackupPaths : List String
  newPaths : List String
  notePath : String
  timestamp : Nat
deriving DecidableEq

/-- The plugin state relevant to undo: the single ledger slot and the set
of vault files, listed by path. -/
structure PluginState where
  lastAction : Option LastAction
  vaultFiles : List String
deriving DecidableEq

/-- Outcome notices of `undoLastAction`. -/
inductive UndoNotice
  | nothingToDo
  | fullyRestored (restored : Nat)
  | partiallyRestored (restored failed : Nat)
deriving DecidableEq

/-- External filesystem outcomes during undo: whether copying a given
backup over a given target succeeds once the backup file exists. -/
structure UndoEnv where
  restoreOk : String → String → Bool

/-- Model of `restoreFromBackup` (src/main.ts lines 1145-1157): succeeds
when the backup file exists in the vault and the binary write succeeds, in
which case the target path exists afterwards. -/
def restoreFromBackup (env : UndoEnv) (vault : List String) (backupPath targetPath : String) :
    List String × Bool :=
  if backupPath ∈ vault ∧ env.restoreOk backupPath targetPath then
    (if targetPath ∈ vault then vault else vault ++ [targetPath], true)
  else (vault, false)

/-- Model of `vault.delete` guarded by `getAbstractFileByPath`: remove the
path when present, tolerating its absence. -/
def deleteFile (vault : List String) (p : String) : List String :=
  vault.filter (fun q => q ≠ p)

/-- Model of `clearLastActionBackups` (src/main.ts lines 1159-1188): delete
every hidden-folder backup, then every local backup, then clear the ledger
slot. -/
def clearLastActionBackups (s : PluginState) : PluginState :=
  match s.lastAction with
  | none => s
  | some a =>
    let v1 := a.backupPaths.foldl deleteFile s.vaultFiles
    let v2 := a.localBackupPaths.foldl deleteFile v1
    { lastAction := none, vaultFiles := v2 }

/-- The restore loop of `undoLastAction` (src/main.ts lines 1200-1226): for
each original path try the hidden-folder backup at the same index, then the
local backup, counting successes and failures. -/
def restoreLoop (env : UndoEnv) (a : LastAction) :
    List String → Nat → List String → Nat → Nat → List String × Nat × Nat
  | [], _, vault, succ, failed => (vault, succ, failed)
  | orig :: rest, i, vault, succ, failed =>
    let step1 : List String × Bool :=
      match a.backupPaths.get? i with
      | some bp => restoreFromBackup env vault bp orig
      | none => (vault, false)
    let step2 : List String × Bool :=
      if step1.2 then step1
      else
        match a.localBackupPaths.get? i with
        | some lbp => restoreFromBackup env step1.1 lbp orig
        | none => (step1.1, false)
    if step2.2 then restoreLoop env a rest (i + 1) step2.1 (succ + 1) failed
    else restoreLoop env a rest (i + 1) step2.1 succ (failed + 1)

/-- Model of `undoLastAction` (src/main.ts lines 1190-1249): with no ledger
entry report nothing to do; otherwise restore the originals, delete the
processed images, then call `clearLastActionBackups` unconditionally, and
report full or partial success.  `vault.delete` is modelled as reliable;
`restoreFromBackup` outcomes come from the environment. -/
def undoLastAction (env : UndoEnv) (s : PluginState) : PluginState × UndoNotice :=
  match s.lastAction with
  | none => (s, UndoNotice.nothingToDo)
  | some a =>
    let r := restoreLoop env a a.originalPaths 0 s.vaultFiles 0 0
    let v2 := a.newPaths.foldl deleteFile r.1
    let s2 := clearLastActionBackups { lastAction := some a, vaultFiles := v2 }
    (s2, if r.2.2 = 0 then UndoNotice.fullyRestored r.2.1
         else UndoNotice.partiallyRestored r.2.1 r.2.2)

-- ===== Sort-relation instances and concrete witness data =====

instance : IsTrans (ImageMatch × String) editLe :=
  ⟨by intro a b c hab hbc; unfold editLe at *; omega⟩

instance : IsTotal (ImageMatch × String) editLe :=
  ⟨by intro a b; unfold editLe; omega⟩

/-- C10 witness environment: every restore attempt fails. -/
def claim10Env : UndoEnv := ⟨fun _ _ => false⟩

/-- C10 witness ledger entry. -/
def claim10Action : LastAction :=
  ⟨["cat.png"], [".backups/1-cat.png"], ["cat.backup-1.png"], ["cat-rounded-25p.png"], "note.md", 1⟩

/-- C10 witness state: the entry is held and all four files exist. -/
def claim10State : PluginState :=
  ⟨some claim10Action, ["cat.png", ".backups/1-cat.png", "cat.backup-1.png", "cat-rounded-25p.png"]⟩

/-- C5 witness environment. -/
def claim5Env : ObsEnv := ⟨fun _ _ => none, fun _ => none, none⟩

/-- C5 witness: two successfully processed references on the same line. -/
def claim5List : List (ImageMatch × String) :=
  [(⟨0, 0, 10, "a.png", "", "![](a.png)", RefKind.markdown⟩, "a-rounded-25p.png"),
   (⟨0, 10, 20, "b.png", "", "![](b.png)", RefKind.markdown⟩, "b-rounded-25p.png")]

/-- C3 witness environment: only `a.png` resolves. -/
def claim3Env : ObsEnv :=
  ⟨fun _ _ => none, fun p => if p = "a.png" then some ⟨"a.png", none, "a", "png"⟩ else none, none⟩

/-- C3 witness reference that succeeds. -/
def claim3M1 : ImageMatch := ⟨0, 0, 10, "a.png", "", "![](a.png)", RefKind.markdown⟩

/-- C3 witness reference that fails (its path does not resolve). -/
def claim3M2 : ImageMatch := ⟨0, 10, 20, "b.png", "", "![](b.png)", RefKind.markdown⟩

/-- C3 witness effects: a full success for `a.png`, irrelevant for the
unresolvable `b.png`. -/
def claim3Eff : ImageMatch → TaskEff := fun m =>
  if m.path = "a.png" then ⟨true, "hb.png", "lb.png", some "a-rounded-25p.png", ["a-rounded-25p.png"], true⟩
  else ⟨true, "", "", none, [], false⟩

/-- C1 counterexample document: the live line holds a reference to a
different asset. -/
def claim1Doc : List String := ["![x](other.png)"]

/-- C1 counterexample reference: stale raw text, asset path `img.png`. -/
def claim1Match : ImageMatch := ⟨0, 0, 13, "img.png", "a", "![a](img.png)", RefKind.markdown⟩

/-- C1 counterexample environment: `other.png` resolves. -/
def claim1Env : ObsEnv :=
  ⟨fun _ _ => none,
   fun p => if p = "other.png" then some ⟨"other.png", none, "other", "png"⟩ else none, none⟩

/-- C1 counterexample effects: every task fully succeeds. -/
def claim1Eff : ImageMatch → TaskEff := fun _ =>
  ⟨true, "hb.png", "lb.png", some "other-rounded-25p.png", ["other-rounded-25p.png"], true⟩

/-- C9 environment for counterexample and witness: the vault holds a file
literally named `a%20b.png`. -/
def claim9Env : ObsEnv :=
  ⟨fun _ _ => none,
   fun s => if s = "a%20b.png" then some ⟨"a%20b.png", none, "a%20b", "png"⟩ else none, none⟩

/-- C2 witness environment: `pics/cat.png` resolves. -/
def claim2Env : ObsEnv :=
  ⟨fun _ _ => none,
   fun p => if p = "pics/cat.png" then some ⟨"pics/cat.png", some "pics", "cat", "png"⟩ else none,
   none⟩

/-- C2 witness reference. -/
def claim2Match : ImageMatch :=
  ⟨0, 0, 20, "pics/cat.png", "cat", "![cat](pics/cat.png)", RefKind.markdown⟩

/-- C2 witness effects where both backup creations fail. -/
def claim2EffN : TaskEff := ⟨true, "", "", none, [], false⟩

/-- C2 witness effects where the hidden backup succeeds. -/
def claim2EffB : TaskEff :=
  ⟨true, ".obsidian-image-round-edges-backups/1-cat.png", "",
   some "pics/cat-rounded-25p.png", ["pics/cat-rounded-25p.png"], true⟩


-- ===== Helper lemmas =====

/-- Appending on the left preserves the JS `endsWith` test. -/
theorem jsEndsWith_append_left (p s : String) : jsEndsWith (p ++ s) s = true := by
  unfold jsEndsWith
  apply decide_eq_true
  exact ⟨p.data, (String.data_append p s).symm⟩

/-- The `next` call never pushes `current` above the concurrency bound. -/
theorem promiseQueue_next_le {α : Type} (s : PromiseQueue α) (h : s.current ≤ s.concurrency) :
    (PromiseQueue.next s).current ≤ s.concurrency := by
  unfold PromiseQueue.next
  split
  · exact h
  · rename_i hcond
    push_neg at hcond
    simpa using hcond.1

/-- The `next` call leaves the concurrency bound unchanged. -/
theorem promiseQueue_next_concurrency {α : Type} (s : PromiseQueue α) :
    (PromiseQueue.next s).concurrency = s.concurrency := by
  unfold PromiseQueue.next
  split <;> rfl

/-- One queue event preserves the pool invariant and the bound. -/
theorem promiseQueue_step_inv {α : Type} (s : PromiseQueue α) (e : QueueEvent α)
    (h : s.current ≤ s.concurrency) :
    (s.step e).current ≤ (s.step e).concurrency ∧ (s.step e).concurrency = s.concurrency := by
  cases e with
  | add t =>
    have h1 : ({ s with queue := s.queue ++ [t] } : PromiseQueue α).current ≤
        ({ s with queue := s.queue ++ [t] } : PromiseQueue α).concurrency := h
    refine ⟨?_, ?_⟩
    · have := promiseQueue_next_le _ h1
      have hc := promiseQueue_next_concurrency ({ s with queue := s.queue ++ [t] } : PromiseQueue α)
      rw [PromiseQueue.step, PromiseQueue.addTask, hc]
      exact this
    · rw [PromiseQueue.step, PromiseQueue.addTask, promiseQueue_next_concurrency]
  | finish =>
    have h1 : ({ s with current := s.current - 1 } : PromiseQueue α).current ≤
        ({ s with current := s.current - 1 } : PromiseQueue α).concurrency :=
      le_trans (Nat.sub_le _ _) h
    refine ⟨?_, ?_⟩
    · have := promiseQueue_next_le _ h1
      have hc := promiseQueue_next_concurrency ({ s with current := s.current - 1 } : PromiseQueue α)
      rw [PromiseQueue.step, PromiseQueue.finishTask, hc]
      exact this
    · rw [PromiseQueue.step, PromiseQueue.finishTask, promiseQueue_next_concurrency]

/-- Any event trace preserves the pool invariant and the bound. -/
theorem promiseQueue_run_inv {α : Type} (evs : List (QueueEvent α)) (s : PromiseQueue α)
    (h : s.current ≤ s.concurrency) :
    (s.run evs).current ≤ s.concurrency ∧ (s.run evs).concurrency = s.concurrency := by
  induction evs generalizing s with
  | nil => exact ⟨h, rfl⟩
  | cons e rest ih =>
    have hstep := promiseQueue_step_inv s e h
    have hrun : s.run (e :: rest) = (s.step e).run rest := rfl
    have := ih (s.step e) hstep.1
    rw [hrun]
    exact ⟨hstep.2 ▸ this.1, hstep.2 ▸ this.2⟩

/-- Folding deletions never adds files. -/
theorem mem_of_mem_foldl_deleteFile (l : List String) (v : List String) (x : String)
    (h : x ∈ l.foldl deleteFile v) : x ∈ v := by
  induction l generalizing v with
  | nil => exact h
  | cons a t ih =>
    rw [List.foldl_cons] at h
    exact (List.mem_filter.mp (ih (deleteFile v a) h)).1

/-- A path in the deletion list is absent after the fold. -/
theorem not_mem_foldl_deleteFile (l : List String) (p : String) (hp : p ∈ l) (v : List String) :
    p ∉ l.foldl deleteFile v := by
  induction l generalizing v with
  | nil => cases hp
  | cons a t ih =>
    rw [List.foldl_cons]
    rcases List.mem_cons.mp hp with rfl | hmem
    · intro hcon
      have hin := mem_of_mem_foldl_deleteFile t (deleteFile v p) p hcon
      have := (List.mem_filter.mp hin).2
      simp at this
    · exact ih hmem (deleteFile v a)


-- ===== Claim theorems =====

/-- C1 (amended): when the stored raw text is stale and the fresh scan of
the line has no candidate whose asset path matches, `refreshMatch` falls
back to the first reference found on the line; the edit is skipped (the
result is `none`) only when the line contains no reference at all. -/
theorem claim1_revalidation_fallback (doc : List String) (m : ImageMatch)
    (hstale : jsSlice (editorGetLine doc m.lineNumber) m.start m.endOffset ≠ m.raw)
    (hnomatch : ∀ c ∈ collectMatches (editorGetLine doc m.lineNumber) m.lineNumber,
      pathsMatch m.path c.path = false) :
    refreshMatch doc m = (collectMatches (editorGetLine doc m.lineNumber) m.lineNumber).head? := by
  unfold refreshMatch
  rw [if_neg hstale]
  unfold findMatchInLine
  have hfind : (collectMatches (editorGetLine doc m.lineNumber) m.lineNumber).find?
      (fun c => pathsMatch m.path c.path) = none :=
    List.find?_eq_none.mpr (fun c hc => by simp [hnomatch c hc])
  by_cases hemp : m.path = "" <;> simp [hemp, hfind]

/-- C1 counterexample: the stored raw text is stale and the fresh scan of
the line has no reference with a matching asset path, yet `refreshMatch`
does not skip the edit: it returns the line's first reference, and the
batch pipeline emits an edit for that span. -/
theorem claim1_counterexample :
    jsSlice (editorGetLine claim1Doc claim1Match.lineNumber) claim1Match.start
      claim1Match.endOffset ≠ claim1Match.raw ∧
    (∀ c ∈ collectMatches (editorGetLine claim1Doc claim1Match.lineNumber) claim1Match.lineNumber,
      pathsMatch claim1Match.path c.path = false) ∧
    refreshMatch claim1Doc claim1Match ≠ none ∧
    (buildChanges claim1Env (successMatchesOf claim1Env claim1Eff
      ([claim1Match].filterMap (refreshMatch claim1Doc)))).map
        (fun c => (c.fromLine, c.fromCh, c.toCh)) = [(0, 0, 15)] := by
  decide

/-- C1 witness: the amended fallback at the counterexample input. -/
theorem claim1_witness :
    jsSlice (editorGetLine claim1Doc claim1Match.lineNumber) claim1Match.start
      claim1Match.endOffset ≠ claim1Match.raw ∧
    refreshMatch claim1Doc claim1Match =
      (collectMatches (editorGetLine claim1Doc claim1Match.lineNumber)
        claim1Match.lineNumber).head? :=
  ⟨by decide, claim1_revalidation_fallback claim1Doc claim1Match (by decide) (by decide)⟩

/-- C2: when both backup creations fail, the per-asset task (in both the
note batch and the bulk batch) aborts with a backup failure, invokes no
transform, and writes nothing; when at least one backup copy succeeds, the
task proceeds to invoke the transform. -/
theorem claim2_backup_gate (E : ObsEnv) (effN effB : TaskEff) (m : ImageMatch) (f : VFile)
    (hres : resolveTFile E m.path = some f)
    (hreadN : effN.readOk = true) (hreadB : effB.readOk = true) :
    ((effN.hiddenBackup = "" ∧ effN.localBackup = "") →
      runNoteTask E effN m =
        ⟨TaskOutcome.backupFailed, false, []⟩) ∧
    ((effN.hiddenBackup ≠ "" ∨ effN.localBackup ≠ "") →
      (runNoteTask E effN m).transformInvoked = true) ∧
    ((effB.hiddenBackup = "" ∧ effB.localBackup = "") →
      runBulkTask effB = ⟨TaskOutcome.backupFailed, false, []⟩) ∧
    ((effB.hiddenBackup ≠ "" ∨ effB.localBackup ≠ "") →
      (runBulkTask effB).transformInvoked = true) := by
  have hnote : runNoteTask E effN m = processOneAsset effN := by
    unfold runNoteTask
    rw [hres]
  have hgate : ∀ eff : TaskEff, eff.readOk = true →
      ((eff.hiddenBackup = "" ∧ eff.localBackup = "") →
        processOneAsset eff = ⟨TaskOutcome.backupFailed, false, []⟩) ∧
      ((eff.hiddenBackup ≠ "" ∨ eff.localBackup ≠ "") →
        (processOneAsset eff).transformInvoked = true) := by
    intro eff hread
    unfold processOneAsset
    rw [hread]
    constructor
    · intro hboth
      simp [hboth]
    · intro hone
      have hcond : ¬ (eff.hiddenBackup = "" ∧ eff.localBackup = "") := by
        rcases hone with h1 | h1 <;> intro hc <;> exact h1 (by simp [hc.1, hc.2])
      simp only [Bool.not_true, if_false, ite_false, Bool.false_eq_true, if_neg hcond]
      cases htr : eff.transform with
      | none => rfl
      | some np => cases eff.finalValid <;> simp
  refine ⟨?_, ?_, ?_, ?_⟩
  · intro hb; rw [hnote]; exact (hgate effN hreadN).1 hb
  · intro hb; rw [hnote]; exact (hgate effN hreadN).2 hb
  · intro hb; exact (hgate effB hreadB).1 hb
  · intro hb; exact (hgate effB hreadB).2 hb

/-- C2 witness: with both backups failed the note task aborts with
`backupFailed` writing nothing, and with one backup present the bulk task
reaches the transform. -/
theorem claim2_witness :
    resolveTFile claim2Env claim2Match.path =
      some ⟨"pics/cat.png", some "pics", "cat", "png"⟩ ∧
    runNoteTask claim2Env claim2EffN claim2Match = ⟨TaskOutcome.backupFailed, false, []⟩ ∧
    (runBulkTask claim2EffB).transformInvoked = true :=
  ⟨by decide,
   (claim2_backup_gate claim2Env claim2EffN claim2EffB claim2Match
     ⟨"pics/cat.png", some "pics", "cat", "png"⟩ (by decide) rfl rfl).1 ⟨rfl, rfl⟩,
   (claim2_backup_gate claim2Env claim2EffN claim2EffB claim2Match
     ⟨"pics/cat.png", some "pics", "cat", "png"⟩ (by decide) rfl rfl).2.2.2
     (Or.inl (by decide))⟩

/-- C3: every change of the submitted transaction comes from a reference
whose task succeeded, and (when the batch's spans identify their
references) a reference whose task failed has no change at its span, so
its text is left untouched. -/
theorem claim3_edits_only_from_successes (E : ObsEnv) (eff : ImageMatch → TaskEff)
    (refreshed : List ImageMatch)
    (hspans : ∀ m1 ∈ refreshed, ∀ m2 ∈ refreshed, m1.lineNumber = m2.lineNumber →
      m1.start = m2.start → m1.endOffset = m2.endOffset → m1 = m2) :
    (∀ c ∈ buildChanges E (successMatchesOf E eff refreshed),
      ∃ m ∈ refreshed, ∃ p, (runNoteTask E (eff m) m).outcome = TaskOutcome.success p ∧
        c.fromLine = m.lineNumber ∧ c.fromCh = m.start ∧ c.toCh = m.endOffset) ∧
    (∀ m ∈ refreshed, (∀ p, (runNoteTask E (eff m) m).outcome ≠ TaskOutcome.success p) →
      ∀ c ∈ buildChanges E (successMatchesOf E eff refreshed),
        ¬ (c.fromLine = m.lineNumber ∧ c.fromCh = m.start ∧ c.toCh = m.endOffset)) := by
  have hmain : ∀ c ∈ buildChanges E (successMatchesOf E eff refreshed),
      ∃ m ∈ refreshed, ∃ p, (runNoteTask E (eff m) m).outcome = TaskOutcome.success p ∧
        c.fromLine = m.lineNumber ∧ c.fromCh = m.start ∧ c.toCh = m.endOffset := by
    intro c hc
    unfold buildChanges at hc
    obtain ⟨item, hitem, rfl⟩ := List.mem_map.mp hc
    have hperm := List.perm_insertionSort editLe (successMatchesOf E eff refreshed)
    have hitem2 : item ∈ successMatchesOf E eff refreshed :=
      hperm.mem_iff.mp hitem
    obtain ⟨m, hm, hsome⟩ := List.mem_filterMap.mp hitem2
    cases hout : (runNoteTask E (eff m) m).outcome with
    | success p =>
      rw [hout] at hsome
      simp only [Option.some_inj] at hsome
      subst hsome
      exact ⟨m, hm, p, hout, rfl, rfl, rfl⟩
    | fileNotFound => rw [hout] at hsome; cases hsome
    | readFailed => rw [hout] at hsome; cases hsome
    | backupFailed => rw [hout] at hsome; cases hsome
    | outputInvalid => rw [hout] at hsome; cases hsome
    | processingException => rw [hout] at hsome; cases hsome
  refine ⟨hmain, ?_⟩
  intro m hm hfail c hc hcspan
  obtain ⟨m2, hm2, p, hout2, hline, hstart, hend⟩ := hmain c hc
  have hm2m : m2 = m :=
    hspans m2 hm2 m hm (hline ▸ hcspan.1) (hstart ▸ hcspan.2.1) (hend ▸ hcspan.2.2)
  rw [hm2m] at hout2
  exact hfail p hout2

/-- C3 witness: with one succeeded and one failed reference, every change
comes from a succeeded reference and the failed one's span is untouched. -/
theorem claim3_witness :
    (∀ m1 ∈ [claim3M1, claim3M2], ∀ m2 ∈ [claim3M1, claim3M2], m1.lineNumber = m2.lineNumber →
      m1.start = m2.start → m1.endOffset = m2.endOffset → m1 = m2) ∧
    ((∀ c ∈ buildChanges claim3Env (successMatchesOf claim3Env claim3Eff [claim3M1, claim3M2]),
      ∃ m ∈ [claim3M1, claim3M2], ∃ p,
        (runNoteTask claim3Env (claim3Eff m) m).outcome = TaskOutcome.success p ∧
        c.fromLine = m.lineNumber ∧ c.fromCh = m.start ∧ c.toCh = m.endOffset) ∧
    (∀ m ∈ [claim3M1, claim3M2],
      (∀ p, (runNoteTask claim3Env (claim3Eff m) m).outcome ≠ TaskOutcome.success p) →
      ∀ c ∈ buildChanges claim3Env (successMatchesOf claim3Env claim3Eff [claim3M1, claim3M2]),
        ¬ (c.fromLine = m.lineNumber ∧ c.fromCh = m.start ∧ c.toCh = m.endOffset))) :=
  ⟨by decide,
   claim3_edits_only_from_successes claim3Env claim3Eff [claim3M1, claim3M2] (by decide)⟩

/-- C4: the batch scheduler's worker pool, created with `new
PromiseQueue(3)` at both call sites, keeps the number of
started-but-not-finished tasks (`current`) at most 3 after any sequence of
add/finish events; `next` starts a queued task only when `current` is
below the bound. -/
theorem claim4_concurrency_bound (α : Type) (evs : List (QueueEvent α)) :
    ((newPromiseQueue α 3).run evs).current ≤ 3 := by
  have h := promiseQueue_run_inv evs (newPromiseQueue α 3) (by simp [newPromiseQueue])
  exact h.1

/-- C5: in the list of edits submitted in the atomic transaction (sorted by
line descending, then start offset descending), an earlier list element
never lies strictly before a later one in document order; and two same-line
edits applied sequentially in that submitted (descending) order replace
both spans correctly, matching the direct string surgery on the pre-edit
line. -/
theorem claim5_descending_order (E : ObsEnv) (sm : List (ImageMatch × String)) :
    (∀ (i j : Nat) (hij : i < j) (hj : j < (buildChanges E sm).length),
      ¬ docBefore ((buildChanges E sm).get ⟨i, Nat.lt_trans hij hj⟩)
        ((buildChanges E sm).get ⟨j, hj⟩)) ∧
    (∀ (line : String) (c1 c2 : EditorChange),
      c1.fromCh ≤ c1.toCh → c1.toCh ≤ c2.fromCh → c2.fromCh ≤ c2.toCh →
      c2.toCh ≤ line.data.length →
      applyChangesSeq line [c2, c1] =
        ⟨line.data.take c1.fromCh ++ c1.text.data ++
          (line.data.take c2.fromCh).drop c1.toCh ++ c2.text.data ++
          line.data.drop c2.toCh⟩) := by
  constructor
  · intro i j hij hj
    have hlen : (buildChanges E sm).length = (sortSuccessMatches sm).length := by
      simp [buildChanges]
    have hj2 : j < (sortSuccessMatches sm).length := hlen ▸ hj
    have hi2 : i < (sortSuccessMatches sm).length := Nat.lt_trans hij hj2
    have hsorted : (sortSuccessMatches sm).Sorted editLe := List.sorted_insertionSort editLe sm
    have hrel : editLe ((sortSuccessMatches sm).get ⟨i, hi2⟩)
        ((sortSuccessMatches sm).get ⟨j, hj2⟩) :=
      hsorted.rel_get_of_lt (Fin.mk_lt_mk.mpr hij)
    have hgi : (buildChanges E sm).get ⟨i, Nat.lt_trans hij hj⟩ =
        changeOf E ((sortSuccessMatches sm).get ⟨i, hi2⟩) := by
      simp [buildChanges]
    have hgj : (buildChanges E sm).get ⟨j, hj⟩ =
        changeOf E ((sortSuccessMatches sm).get ⟨j, hj2⟩) := by
      simp [buildChanges]
    intro hbefore
    rw [hgi, hgj] at hbefore
    simp only [changeOf, docBefore] at hbefore
    unfold editLe at hrel
    omega
  · intro line c1 c2 h11 h12 h22 h2len
    have hlen2 : (line.data.take c2.fromCh).length = c2.fromCh := by
      rw [List.length_take]
      exact Nat.min_eq_left (Nat.le_trans h22 h2len)
    have hstep : applyChangesSeq line [c2, c1] =
        applyChangeToLine (applyChangeToLine line c2) c1 := rfl
    rw [hstep]
    unfold applyChangeToLine
    apply congrArg String.mk
    have hdata : (String.mk (line.data.take c2.fromCh ++ c2.text.data ++
        line.data.drop c2.toCh)).data =
        (line.data.take c2.fromCh ++ c2.text.data) ++ line.data.drop c2.toCh := by
      simp [List.append_assoc]
    rw [hdata]
    have htake : ((line.data.take c2.fromCh ++ c2.text.data) ++ line.data.drop c2.toCh).take
        c1.fromCh = line.data.take c1.fromCh := by
      rw [List.take_append_of_le_length, List.take_append_of_le_length, List.take_take,
        Nat.min_eq_left (Nat.le_trans h11 h12)]
      · rw [hlen2]; exact Nat.le_trans h11 h12
      · rw [List.length_append, hlen2]
        exact Nat.le_trans (Nat.le_trans h11 h12) (Nat.le_add_right _ _)
    have hdrop : ((line.data.take c2.fromCh ++ c2.text.data) ++ line.data.drop c2.toCh).drop
        c1.toCh = ((line.data.take c2.fromCh).drop c1.toCh ++ c2.text.data) ++
          line.data.drop c2.toCh := by
      rw [List.drop_append_of_le_length, List.drop_append_of_le_length]
      · rw [hlen2]; exact h12
      · rw [List.length_append, hlen2]
        exact Nat.le_trans h12 (Nat.le_add_right _ _)
    rw [htake, hdrop]
    simp [List.append_assoc]

/-- C5 witness: on a two-edit same-line transaction the first submitted
edit does not lie before the second, and sequential application in the
submitted order replaces both same-line spans as direct surgery would. -/
theorem claim5_witness :
    (0 < 1 ∧ 1 < (buildChanges claim5Env claim5List).length ∧
      ¬ docBefore ((buildChanges claim5Env claim5List).get ⟨0, by decide⟩)
        ((buildChanges claim5Env claim5List).get ⟨1, by decide⟩)) ∧
    applyChangesSeq "![](a.png)![](b.png)"
        [⟨0, 10, 0, 20, "![](b-rounded-25p.png)"⟩, ⟨0, 0, 0, 10, "![](a-rounded-25p.png)"⟩] =
      "![](a-rounded-25p.png)![](b-rounded-25p.png)" :=
  ⟨⟨by decide, by decide,
    (claim5_descending_order claim5Env claim5List).1 0 1 (by decide) (by decide)⟩,
   by
    have h := (claim5_descending_order claim5Env claim5List).2 "![](a.png)![](b.png)"
      ⟨0, 0, 0, 10, "![](a-rounded-25p.png)"⟩ ⟨0, 10, 0, 20, "![](b-rounded-25p.png)"⟩
      (by decide) (by decide) (by decide) (by decide)
    rw [h]
    decide⟩

/-- C6: for every requested radius, unit, and image dimensions, the
effective radius computed by both the Python transform and the canvas
fallback lies in `[0, min(w, h) / 2]`. -/
theorem claim6_radius_clamp (w h : Nat) (radiusValue : ℚ) (unit : RadiusUnit) :
    0 ≤ pyRadiusPx w h radiusValue unit ∧
    pyRadiusPx w h radiusValue unit ≤ min (w : ℚ) (h : ℚ) / 2 ∧
    0 ≤ canvasRadiusPx w h radiusValue unit ∧
    canvasRadiusPx w h radiusValue unit ≤ min (w : ℚ) (h : ℚ) / 2 := by
  have hbase : (0 : ℚ) ≤ min (w : ℚ) (h : ℚ) := le_min (Nat.cast_nonneg w) (Nat.cast_nonneg h)
  have hhalf : (0 : ℚ) ≤ min (w : ℚ) (h : ℚ) / 2 := div_nonneg hbase (by norm_num)
  refine ⟨le_max_left 0 _, max_le hhalf (min_le_right _ _),
    le_max_left 0 _, max_le hhalf (min_le_right _ _)⟩

/-- C7: the output path of a transformed asset is deterministic and equals
the specified template `{dir}/{basename}-rounded-{radius}{p|px}.png` for
both the external strategy and the canvas fallback, always with a `.png`
extension. -/
theorem claim7_output_path (folder base radiusStr : String) (unit : RadiusUnit) :
    roundImageFileNewPath folder base radiusStr unit = specOutputPath folder base radiusStr unit ∧
    roundImageWithCanvasNewPath folder base radiusStr unit =
      specOutputPath folder base radiusStr unit ∧
    jsEndsWith (roundImageFileNewPath folder base radiusStr unit) ".png" = true := by
  refine ⟨?_, ?_, ?_⟩
  · cases unit <;> by_cases hf : folder = "" <;>
      simp [roundImageFileNewPath, specOutputPath, hf, String.append_assoc]
  · cases unit <;> by_cases hf : folder = "" <;>
      simp [roundImageWithCanvasNewPath, specOutputPath, hf, String.append_assoc]
  · cases unit <;> by_cases hf : folder = "" <;>
      simp only [roundImageFileNewPath, ne_eq, hf, not_true_eq_false, not_false_eq_true,
        if_true, if_false, ite_true, ite_false] <;>
      exact jsEndsWith_append_left _ _

/-- C8: two path strings whose `pathsMatch` normal forms are equal, or one
of which is a `/`-separated suffix of the other, are accepted by
`pathsMatch`. -/
theorem claim8_pathsMatch_suffix (a b : String)
    (h : pathsMatchNorm a = pathsMatchNorm b ∨
      (∃ p, pathsMatchNorm a = p ++ "/" ++ pathsMatchNorm b) ∨
      (∃ p, pathsMatchNorm b = p ++ "/" ++ pathsMatchNorm a)) :
    pathsMatch a b = true := by
  unfold pathsMatch
  simp only [Bool.or_eq_true]
  rcases h with h | ⟨p, hp⟩ | ⟨p, hp⟩
  · exact Or.inl (Or.inl (decide_eq_true h))
  · refine Or.inl (Or.inr ?_)
    rw [hp, String.append_assoc]
    exact jsEndsWith_append_left p _
  · refine Or.inr ?_
    rw [hp, String.append_assoc]
    exact jsEndsWith_append_left p _

/-- C8 witness: `./img/a.png` and `Notes/img/a.png` match. -/
theorem claim8_witness :
    (pathsMatchNorm "Notes/img/a.png" = "notes" ++ "/" ++ pathsMatchNorm "./img/a.png") ∧
    pathsMatch "./img/a.png" "Notes/img/a.png" = true :=
  ⟨by decide, claim8_pathsMatch_suffix "./img/a.png" "Notes/img/a.png"
    (Or.inr (Or.inr ⟨"notes", by decide⟩))⟩

/-- C9 (amended): resolving the sanitized output a second time returns the
same handle provided the twice-sanitized path is a fixed point of
`sanitizeImagePath` and re-sanitization does not flip the remote
(`http(s):`) test. -/
theorem claim9_sanitize_resolve (E : ObsEnv) (p q q2 : String)
    (_hpq : sanitizeImagePath p = some q)
    (hqq2 : sanitizeImagePath q = some q2)
    (hfix : sanitizeImagePath q2 = some q2)
    (hhttp : isHttpLink q = isHttpLink q2) :
    resolveTFile E q = resolveTFile E q2 := by
  unfold resolveTFile
  rw [hqq2, hfix, ← hhttp]
  rfl

/-- C9 counterexample: sanitization percent-decodes once per application,
so for the doubly encoded `a%252520b.png` the once-sanitized and
twice-sanitized outputs resolve to different handles. -/
theorem claim9_counterexample :
    sanitizeImagePath "a%252520b.png" = some "a%2520b.png" ∧
    sanitizeImagePath "a%2520b.png" = some "a%20b.png" ∧
    resolveTFile claim9Env "a%2520b.png" = some ⟨"a%20b.png", none, "a%20b", "png"⟩ ∧
    resolveTFile claim9Env "a%20b.png" = none := by
  decide

/-- C9 witness: for `././img/cat.png` the once- and twice-sanitized paths
differ but resolve identically. -/
theorem claim9_witness :
    sanitizeImagePath "././img/cat.png" = some "./img/cat.png" ∧
    resolveTFile claim9Env "./img/cat.png" = resolveTFile claim9Env "img/cat.png" :=
  ⟨by decide,
   claim9_sanitize_resolve claim9Env "././img/cat.png" "./img/cat.png" "img/cat.png"
     (by decide) (by decide) (by decide) (by decide)⟩

/-- C10 (implicit): undo consumes the ledger entry unconditionally — after
an undo with a held entry, the slot is empty and every hidden-folder and
local backup of the entry has been deleted, whatever the per-asset restore
outcomes were; a second undo on the resulting state changes nothing and
reports nothing to do, so a failed restore cannot be retried through the
ledger. -/
theorem claim10_undo_consumes_ledger (env : UndoEnv) (s : PluginState) (a : LastAction)
    (h : s.lastAction = some a) :
    (undoLastAction env s).1.lastAction = none ∧
    (∀ p ∈ a.backupPaths, p ∉ (undoLastAction env s).1.vaultFiles) ∧
    (∀ p ∈ a.localBackupPaths, p ∉ (undoLastAction env s).1.vaultFiles) ∧
    undoLastAction env (undoLastAction env s).1 =
      ((undoLastAction env s).1, UndoNotice.nothingToDo) := by
  obtain ⟨la, vault⟩ := s
  cases h
  have hred : (undoLastAction env ⟨some a, vault⟩).1 =
      ⟨none, a.localBackupPaths.foldl deleteFile (a.backupPaths.foldl deleteFile
        (a.newPaths.foldl deleteFile (restoreLoop env a a.originalPaths 0 vault 0 0).1))⟩ := rfl
  rw [hred]
  refine ⟨rfl, ?_, ?_, rfl⟩
  · intro p hp hcon
    have hin := mem_of_mem_foldl_deleteFile _ _ _ hcon
    exact not_mem_foldl_deleteFile _ p hp _ hin
  · intro p hp
    exact not_mem_foldl_deleteFile _ p hp _

/-- C10 witness: with failing restores, undo still clears the slot,
deletes both backups, and a second undo reports nothing to do. -/
theorem claim10_witness :
    claim10State.lastAction = some claim10Action ∧
    ((undoLastAction claim10Env claim10State).1.lastAction = none ∧
     (∀ p ∈ claim10Action.backupPaths, p ∉ (undoLastAction claim10Env claim10State).1.vaultFiles) ∧
     (∀ p ∈ claim10Action.localBackupPaths,
        p ∉ (undoLastAction claim10Env claim10State).1.vaultFiles) ∧
     undoLastAction claim10Env (undoLastAction claim10Env claim10State).1 =
       ((undoLastAction claim10Env claim10State).1, UndoNotice.nothingToDo)) :=
  ⟨rfl, claim10_undo_consumes_ledger claim10Env claim10State claim10Action rfl⟩
